import Mathlib

/-!
Shallow embedding of the tourist-core library (TypeScript) in Lean 4,
used to settle the claims of the specification against the source.

The embedding follows the source files:
  * `FileChanges` with `computeDelta` / `undoDelta`   (fileChanges module)
  * `Tourist.add / remove / refresh / scramble`       (tourist.ts)
  * `serializeTourFile / deserializeTourFile`, `validTourFile` (tourist.ts, types.ts)
  * `GitProvider.getGenericChangesForFile` and `DiffCache` (versionProvider.ts)

JavaScript-specific behaviour is modelled explicitly where it is observable:
  * `Array.prototype.sort()` with no comparator sorts by the lexicographic
    order of the elements' decimal string representations;
  * `Map.prototype.forEach` passes `(value, key)` to its callback;
  * indexing an array out of range yields `undefined` (modelled as `none`);
  * external collaborators (filesystem, git subprocess, parse-diff output)
    are oracle functions supplied in an environment record.
-/

namespace Tourist

/-- JS default-sort comparison: decimal string representations compared
    lexicographically (UTF-16 code units, here plain characters). -/
def jsStrLt (a b : String) : Bool :=
  let rec go : List Char → List Char → Bool
    | [], [] => false
    | [], _ :: _ => true
    | _ :: _, [] => false
    | c :: cs, d :: ds => if c = d then go cs ds else decide (c < d)
  go a.data b.data

/-- Comparison used by JavaScript `Array.prototype.sort()` on numbers when no
    comparator is given: compare `String(a)` and `String(b)`. -/
def jsNumLt (a b : Int) : Bool := jsStrLt (toString a) (toString b)

/-- Stable insertion of an element into a JS-sorted list (equal keys keep
    their original relative order, as guaranteed by ES2019 `sort`). -/
def jsInsert (x : Int) : List Int → List Int
  | [] => [x]
  | y :: ys => if jsNumLt x y then x :: y :: ys else y :: jsInsert x ys

/-- JavaScript `array.sort()` on an integer array (default comparator). -/
def jsSort : List Int → List Int
  | [] => []
  | x :: xs => jsInsert x (jsSort xs)

/-- One file's diff between two points in time (class `FileChanges`).
    `moves` is a JS `Map<number, number>` from source line to target line,
    modelled as an association list with the map's insertion order. -/
structure FileChanges where
  additions : List Int
  deletions : List Int
  moves : List (Int × Int)
  name : String
  deriving Repr, DecidableEq

/-- JS `Map.get` / `Map.has`: lookup by key (keys are unique in a `Map`). -/
def mapGet (m : List (Int × Int)) (k : Int) : Option Int :=
  (m.find? (fun p => p.1 = k)).map (·.2)

/-- The `for (const add of additions.sort()) { if (add < line) line++; else break; }`
    loop of `computeDelta` (and the symmetric loop of `undoDelta`). -/
def shiftScan : List Int → Int → Int
  | [], line => line
  | a :: rest, line => if a < line then shiftScan rest (line + 1) else line

/-- `FileChanges.computeDelta` (source: fileChanges module).
    Returns `none` where the TypeScript returns `null`. -/
def FileChanges.computeDelta (c : FileChanges) (line : Int) : Option Int :=
  if line ∈ c.deletions then none
  else
    match mapGet c.moves line with
    | some t => some t
    | none =>
      -- `line -= this.deletions.length;` — the *total* deletion count
      let l := line - c.deletions.length
      some (shiftScan (jsSort c.additions) l)

/-- `FileChanges.undoDelta` (source: fileChanges module).

    The source builds `moves` by
    `this.moves.forEach((before, after) => moves.set(after, before))`;
    JS `Map.forEach` passes `(value, key)`, so `before` is the value and
    `after` is the key, and the new map is an identical copy of `this.moves`
    (not its inverse).  The subsequent `moves.has(line)` therefore looks the
    line up among the *source* keys, exactly as in `computeDelta`. -/
def FileChanges.undoDelta (c : FileChanges) (line : Int) : Option Int :=
  if line ∈ c.additions then none
  else
    match mapGet c.moves line with
    | some t => some t
    | none =>
      -- `line -= this.additions.filter((add) => add < line).length;`
      let l := line - (c.additions.filter (fun a => decide (a < line))).length
      some (shiftScan (jsSort c.deletions) l)

/-- Number of additions consumed by the ascending scan of `computeDelta`:
    walking the (JS-)sorted addition list, one addition is consumed per entry
    strictly below the running position, and the scan stops at the first
    entry at or past it. -/
def consumedShifts : List Int → Int → Nat
  | [], _ => 0
  | a :: rest, line => if a < line then consumedShifts rest (line + 1) + 1 else 0

theorem shiftScan_eq_add_consumed (l : List Int) (line : Int) :
    shiftScan l line = line + consumedShifts l line := by
  induction l generalizing line with
  | nil => simp [shiftScan, consumedShifts]
  | cons a rest ih =>
    simp only [shiftScan, consumedShifts]
    by_cases h : a < line
    · simp only [if_pos h, ih]
      push_cast
      ring
    · simp [if_neg h]

/-- Stable insertion into a numerically ascending list. -/
def numInsert (x : Int) : List Int → List Int
  | [] => [x]
  | y :: ys => if x < y then x :: y :: ys else y :: numInsert x ys

/-- Stable sort into ascending numeric order. -/
def numSort : List Int → List Int
  | [] => []
  | x :: xs => numInsert x (numSort xs)

/-- The algorithm that claim C2 (spec §4.1) describes: subtract the count of
    deletions *at or before* the line, then add additions scanned in
    ascending *numeric* order, one per addition before the running position,
    stopping at the first addition at or past it. -/
def claimedComputeDelta (c : FileChanges) (line : Int) : Option Int :=
  if line ∈ c.deletions then none
  else
    match mapGet c.moves line with
    | some t => some t
    | none =>
      let l := line - (c.deletions.filter (fun d => decide (d ≤ line))).length
      some (shiftScan (numSort c.additions) l)

/-- A child-tour link on a stop (`{tourId, stopNum}`). -/
structure ChildStop where
  tourId : String
  stopNum : Int
  deriving Repr, DecidableEq

/-- A repository-relative tour stop (interface `TourStop`). -/
structure TourStop where
  id : String
  title : String
  body : String
  line : Int
  relPath : String
  repository : String
  childStops : List ChildStop
  deriving Repr, DecidableEq

/-- A repository binding (`RepoState`): repository name and pinned commit. -/
structure RepoState where
  repository : String
  commit : String
  deriving Repr, DecidableEq

/-- The tour-file aggregate (interface `TourFile`).
    `generator` is the stop-id counter; it is absent (`none`) until `add`
    first needs it, mirroring the optional TS field. -/
structure TourFile where
  protocolVersion : String
  id : String
  title : String
  description : String
  version : String
  generator : Option Int
  repositories : List RepoState
  stops : List TourStop
  deriving Repr, DecidableEq

/-- `TouristError(code, message, repoName?)`. -/
structure TouristError where
  code : Int
  message : String
  repoName : Option String := none
  deriving Repr, DecidableEq

/-- JS array indexing `xs[i]`: out-of-range (including negative) indices
    yield `undefined`, modelled as `none`. -/
def jsIndex (xs : List α) (i : Int) : Option α :=
  if h : 0 ≤ i ∧ i < xs.length then some (xs.get ⟨i.toNat, by omega⟩) else none

/-- `Tourist.scramble(tf, indices)` (tourist.ts).  Only the stop list is read
    and replaced, so the embedding maps the stop list.  The guard rejects an
    index only when it is `>=` the list length; the `undefined` entries that
    negative indices produce in `indices.map((i) => tf.stops[i])` are kept as
    `none`.  The thrown `Error` is modelled by its message. -/
def scramble (stops : List TourStop) (indices : List Int) :
    Except String (List (Option TourStop)) :=
  if indices.any (fun i => decide ((stops.length : Int) ≤ i)) then
    .error "One or more indices out of bounds."
  else
    .ok (indices.map (jsIndex stops))

/-- `Tourist.remove(tf, stopId)` (tourist.ts): splice out the stop with the
    given id, then prune every repository binding that no remaining stop
    references. -/
def remove (tf : TourFile) (stopId : String) : Except TouristError TourFile :=
  match tf.stops.findIdx? (fun stop => stop.id = stopId) with
  | none => .error ⟨0, "Stop ID is not in tour.", none⟩
  | some index =>
    let stops := tf.stops.eraseIdx index
    let remainingRepos := stops.map (·.repository)
    let repositories :=
      tf.repositories.filter (fun repo => remainingRepos.contains repo.repository)
    .ok { tf with stops := stops, repositories := repositories }

/-- A stop given by absolute path, as passed to `add` (`AbsoluteTourStop`). -/
structure AbsoluteTourStop where
  id : Option String
  title : String
  body : String
  absPath : String
  line : Int
  childStops : List ChildStop
  deriving Repr, DecidableEq

/-- External collaborators of the Tour Store, as oracle functions:
    the repository index (`config`), the filesystem (`fileLines` returns the
    number of lines of a readable file), and the version provider `vp`
    (keyed by commit, relative path and repository root). -/
structure Env where
  config : List (String × String)
  fileLines : String → Option Int
  getCurrentVersion : String → Option String
  getChangesForFile : String → String → String → Option FileChanges
  getDirtyChangesForFile : String → String → String → Option FileChanges

/-- `AbsolutePath.toRelativePath` normalises every repository root to end in
    a path separator before the prefix test (paths.ts).  String operations
    are expressed over the character lists so that they compute by kernel
    reduction. -/
def withTrailingSep (root : String) : String :=
  if root.data.getLast? = some '/' then root else root ++ "/"

/-- `a.startsWith(b)` over character lists. -/
def strIsPrefixOf (p s : String) : Bool := p.data.isPrefixOf s.data

/-- Remainder of `s` after a prefix of the length of `p`. -/
def strDropPrefix (p s : String) : String := ⟨s.data.drop p.data.length⟩

/-- Stable insertion used to model the JS stable `sort` of `Object.entries`
    by ascending root length (paths.ts). -/
def insertByRootLen (e : String × String) :
    List (String × String) → List (String × String)
  | [] => [e]
  | f :: fs =>
    if e.2.length < f.2.length then e :: f :: fs else f :: insertByRootLen e fs

/-- `Object.entries(config).sort((a, b) => a[1].length - b[1].length)`. -/
def sortEntriesByRootLen : List (String × String) → List (String × String)
  | [] => []
  | e :: es => insertByRootLen e (sortEntriesByRootLen es)

/-- `AbsolutePath.toRelativePath(config)` (paths.ts): scan the
    length-sorted entries and take the first whose root (with trailing
    separator) is a prefix of the path; the relative path is the remainder.
    POSIX separators are assumed throughout the embedding. -/
def toRelativePath (config : List (String × String)) (absPath : String) :
    Option (String × String) :=
  let paths := sortEntriesByRootLen config
  match paths.find? (fun e => strIsPrefixOf (withTrailingSep e.2) absPath) with
  | none => none
  | some e => some (e.1, strDropPrefix (withTrailingSep e.2) absPath)

/-- `Tourist.getRepoPath` (tourist.ts): repository-index lookup, error 200
    when the repository is unmapped. -/
def getRepoPath (env : Env) (repo : String) : Except TouristError String :=
  match env.config.find? (fun e => e.1 = repo) with
  | none =>
    .error ⟨200, s!"Repository {repo} is not mapped to a path.", some repo⟩
  | some e => .ok e.2

/-- `Tourist.verifyLocation` (tourist.ts): the file must be readable
    (error 100) and `1 <= line <= number of lines` (error 101). -/
def verifyLocation (env : Env) (path : String) (line : Int) :
    Except TouristError Unit :=
  match env.fileLines path with
  | none => .error ⟨100, s!"Invalid location. Could not read {path}.", none⟩
  | some n =>
    if line < 1 ∨ n < line then
      .error ⟨101, s!"Invalid location. No line {line} in {path}.", none⟩
    else .ok ()

/-- `repoState.commit = currVersion` mutates the first binding found by
    `Array.prototype.find`; later duplicates are untouched. -/
def updateFirstCommit : List RepoState → String → String → List RepoState
  | [], _, _ => []
  | r :: rs, repo, v =>
    if r.repository = repo then { r with commit := v } :: rs
    else r :: updateFirstCommit rs repo v

/-- `Tourist.refresh(tf, repository)` (tourist.ts): fetch the current
    version (202 on failure), look up the binding (300 when absent), return
    unchanged when the binding is already current, otherwise remap every
    stop of the repository through `computeDelta` of the committed diff
    (unmappable stops get line 0 and empty path) and advance the binding. -/
def refresh (env : Env) (tf : TourFile) (repository : String) :
    Except TouristError TourFile :=
  match getRepoPath env repository with
  | .error e => .error e
  | .ok repoPath =>
  match env.getCurrentVersion repoPath with
  | none =>
    .error ⟨202, s!"Could not get current version for repository {repository}.",
      some repository⟩
  | some currVersion =>
    match tf.repositories.find? (fun st => st.repository = repository) with
    | none =>
      .error ⟨300, s!"No version for repository {repository}.", some repository⟩
    | some repoState =>
      if repoState.commit = currVersion then
        .ok tf
      else
        let stops := tf.stops.map (fun stop =>
          if stop.repository ≠ repository then stop
          else
            match env.getChangesForFile repoState.commit stop.relPath repoPath with
            | none => stop
            | some changes =>
              match changes.computeDelta stop.line with
              | some newLine => { stop with line := newLine, relPath := changes.name }
              | none => { stop with line := 0, relPath := "" })
        .ok { tf with
          stops := stops,
          repositories := updateFirstCommit tf.repositories repository currVersion }

/-- `Tourist.abstractStop(id, stop, repoState?)` (tourist.ts): translate the
    absolute stop into a repository-relative one; against an existing
    binding the dirty diff from that binding's commit is undone on the line.
    The TS writes `stop.line = changes.undoDelta(stop.line)!`; the
    non-null assertion is unchecked at runtime, and the null case (a line in
    `additions`) is modelled as 0 here — no theorem below exercises it. -/
def abstractStop (env : Env) (id : String) (stop : AbsoluteTourStop)
    (repoState : Option RepoState) : Except TouristError TourStop := do
  match toRelativePath env.config stop.absPath with
  | none =>
    throw ⟨201, s!"Path {stop.absPath} is not mapped as a repository.", none⟩
  | some (repository, relPathPath) =>
    let repoPath ← getRepoPath env repository
    let commit : Option String :=
      match repoState with
      | some rs => some rs.commit
      | none => env.getCurrentVersion repoPath
    let line :=
      match commit with
      | none => stop.line
      | some c =>
        match env.getDirtyChangesForFile c relPathPath repoPath with
        | none => stop.line
        | some changes => (changes.undoDelta stop.line).getD 0
    pure ⟨id, stop.title, stop.body, line, relPathPath, repository, stop.childStops⟩

/-- JS `array.splice(index, 0, x)`: negative indices count from the end,
    indices past the end append. -/
def spliceInsert (stops : List TourStop) (index : Int) (s : TourStop) :
    List TourStop :=
  let n : Int := stops.length
  let i := if index < 0 then max (n + index) 0 else min index n
  stops.take i.toNat ++ s :: stops.drop i.toNat

/-- `Tourist.add(tf, stop, index?, id?)` (tourist.ts), step by step in source
    order: resolve the stop id (the generator treats `undefined` and `0` the
    same, as `!tf.generator` does), verify the location, **refresh every
    repository already bound in the tour file**, resolve the absolute path
    against the repository index (204), look up the binding, fetch the
    current version (202), create the binding when absent, abstract the stop
    against the pre-existing binding, fail with 203 when that binding's
    commit disagrees with the fetched version, and insert the stop. -/
def add (env : Env) (tf : TourFile) (stop : AbsoluteTourStop)
    (index : Option Int) (idArg : Option String) :
    Except TouristError (TourFile × String) := do
  let (id, tf) : String × TourFile :=
    match idArg with
    | some i => (i, tf)
    | none =>
      match stop.id with
      | some sid => (sid, tf)
      | none =>
        let g := tf.generator.getD 0
        (tf.id ++ ":" ++ toString g, { tf with generator := some (g + 1) })
  let _ ← verifyLocation env stop.absPath stop.line
  let tf ← (tf.repositories.map (·.repository)).foldlM
    (fun tf name => refresh env tf name) tf
  match toRelativePath env.config stop.absPath with
  | none => throw ⟨204, "No known repository in this tree.", none⟩
  | some (repository, _relPathPath) =>
    let repoState := tf.repositories.find? (fun st => st.repository = repository)
    let repoPath ← getRepoPath env repository
    match env.getCurrentVersion repoPath with
    | none =>
      throw ⟨202, s!"Could not get current version for repository {repository}.",
        some repository⟩
    | some version =>
      let tf :=
        match repoState with
        | none =>
          { tf with repositories := tf.repositories ++ [RepoState.mk repository version] }
        | some _ => tf
      let relStop ← abstractStop env id stop repoState
      match repoState with
      | some rs =>
        if rs.commit ≠ version then
          throw ⟨203,
            s!"Mismatched versions. Repository {rs.repository} is checked out to the wrong version.",
            some rs.repository⟩
        else
          match index with
          | some i => pure ({ tf with stops := spliceInsert tf.stops i relStop }, relStop.id)
          | none => pure ({ tf with stops := tf.stops ++ [relStop] }, relStop.id)
      | none =>
        match index with
        | some i => pure ({ tf with stops := spliceInsert tf.stops i relStop }, relStop.id)
        | none => pure ({ tf with stops := tf.stops ++ [relStop] }, relStop.id)

/-- JSON values, the image of `JSON.parse` / the input of `JSON.stringify`. -/
inductive Json where
  | str : String → Json
  | num : Int → Json
  | bool : Bool → Json
  | null : Json
  | arr : List Json → Json
  | obj : List (String × Json) → Json

/-- JS property access `j[k]`: `undefined` (here `none`) unless `j` is an
    object with the property. -/
def jsonGet (j : Json) (k : String) : Option Json :=
  match j with
  | .obj fields => (fields.find? (fun f => f.1 = k)).map (·.2)
  | _ => none

/-- `typeof x === "string"`. -/
def isStr : Option Json → Bool
  | some (.str _) => true
  | _ => false

/-- `typeof x === "number"`. -/
def isNum : Option Json → Bool
  | some (.num _) => true
  | _ => false

/-- `validStableVersion` (stable-version module): accessing `.kind` on
    `undefined` or `null` throws, which the function's own try/catch turns
    into `false`. -/
def validStableVersion : Option Json → Bool
  | some j =>
    match jsonGet j "kind" with
    | some (.str "git") => isStr (jsonGet j "commit")
    | some (.str "unversioned") => true
    | _ => false
  | none => false

/-- `validTourStop` (types.ts). -/
def validTourStop (j : Json) : Bool :=
  isStr (jsonGet j "title") && isNum (jsonGet j "line") &&
    isStr (jsonGet j "relPath") && isStr (jsonGet j "repository")

/-- `validRepoState` (types.ts): requires a `versionMode` string and a
    structurally valid `StableVersion` under `version`. -/
def validRepoState (j : Json) : Bool :=
  isStr (jsonGet j "repository") && isStr (jsonGet j "versionMode") &&
    validStableVersion (jsonGet j "version")

/-- `validTourFile` (types.ts): `stops.every` / `repositories.every` throw
    on a missing or non-array field, which the surrounding try/catch turns
    into `false`. -/
def validTourFile (j : Json) : Bool :=
  isStr (jsonGet j "title") && isStr (jsonGet j "version") &&
    (match jsonGet j "stops" with
     | some (.arr xs) => xs.all validTourStop
     | _ => false) &&
    (match jsonGet j "repositories" with
     | some (.arr xs) => xs.all validRepoState
     | _ => false)

/-- JSON encoding of a child-stop link; both keys are in the replacer list
    of `serializeTourFile`. -/
def encodeChildStop (c : ChildStop) : Json :=
  .obj [("tourId", .str c.tourId), ("stopNum", .num c.stopNum)]

/-- JSON encoding of a stop; every `TourStop` field is in the replacer list. -/
def encodeStop (s : TourStop) : Json :=
  .obj [("id", .str s.id), ("title", .str s.title), ("body", .str s.body),
    ("line", .num s.line), ("relPath", .str s.relPath),
    ("repository", .str s.repository),
    ("childStops", .arr (s.childStops.map encodeChildStop))]

/-- JSON encoding of a binding: the replacer keeps `repository` and
    `commit` (a `versionMode` or structured `version` field would be
    dropped, but the current `RepoState` has neither). -/
def encodeRepoState (r : RepoState) : Json :=
  .obj [("repository", .str r.repository), ("commit", .str r.commit)]

/-- `Tourist.serializeTourFile(tf)` (tourist.ts): `JSON.stringify` with the
    fixed replacer key list.  Every field of the current `TourFile` shape is
    in that list, so the encoding is full; an absent `generator` is omitted
    as `undefined` properties are. -/
def serializeTourFile (tf : TourFile) : Json :=
  .obj
    ([("protocolVersion", .str tf.protocolVersion), ("id", .str tf.id),
      ("repositories", .arr (tf.repositories.map encodeRepoState)),
      ("stops", .arr (tf.stops.map encodeStop)),
      ("title", .str tf.title), ("description", .str tf.description),
      ("version", .str tf.version)] ++
      (match tf.generator with
       | some g => [("generator", .num g)]
       | none => []))

/-- `Tourist.deserializeTourFile(json)` (tourist.ts).  `JSON.parse` is
    modelled by the caller: `none` stands for text that is not valid JSON
    (where `JSON.parse` throws).  The structural check throws
    `TouristError(401, "Object is not a valid TourFile.")` *inside* the
    `try` block, so the surrounding `catch` intercepts it and replaces it
    with `TouristError(400, "Invalid JSON string.")` — both failure kinds
    surface as error 400. -/
def deserializeTourFile (parsed : Option Json) : Except TouristError Json :=
  match parsed with
  | none => .error ⟨400, "Invalid JSON string.", none⟩
  | some obj =>
    if validTourFile obj then .ok obj
    else .error ⟨400, "Invalid JSON string.", none⟩

/-- Key of the diff session cache (versionProvider.ts):
    `(commit, repoPath, includeWorkingCopy)`. -/
structure DiffKey where
  commit : String
  repoPath : String
  includeWorkingCopy : Bool
  deriving Repr, DecidableEq

/-- Parsed `git diff` output for one key: the parse-diff result per file,
    keyed by the file's source path and abstracted to the `FileChanges` the
    chunk-walking loop of `getGenericChangesForFile` produces for it. -/
abbrev DiffFiles := List (String × FileChanges)

/-- The `DiffCache` store: `null` outside a `start`/`invalidate` window,
    otherwise a map.  The source keys the inner `Map` with a fresh object
    literal on every `load`, so by JS `Map` reference-equality no lookup can
    ever hit; the model is *generous* to the source and looks keys up
    structurally. -/
structure DiffCacheState where
  cache : Option (List (DiffKey × DiffFiles))
  deriving Repr

/-- `DiffCache.start()`. -/
def cacheStart : DiffCacheState := ⟨some []⟩

/-- `DiffCache.invalidate()`. -/
def cacheInvalidate : DiffCacheState := ⟨none⟩

/-- `DiffCache.load(args)` (with the structural-key generosity noted on
    `DiffCacheState`). -/
def cacheLoad (st : DiffCacheState) (k : DiffKey) : Option DiffFiles :=
  match st.cache with
  | none => none
  | some m => (m.find? (fun e => e.1 = k)).map (·.2)

/-- The tail of `getGenericChangesForFile`: find the file by source path;
    a file absent from the diff yields the empty `FileChanges` named by the
    requested path. -/
def extractFileChanges (files : DiffFiles) (path : String) : FileChanges :=
  match files.find? (fun f => f.1 = path) with
  | none => FileChanges.mk [] [] [] path
  | some f => f.2

/-- `GitProvider.getGenericChangesForFile` (versionProvider.ts), with the
    subprocess diff + parse-diff step as the oracle `diffOracle` and a
    counter of how many times that step runs.  On a cache miss the source
    computes `files` and uses them, but **never calls `cache.save`**, so the
    state is returned unchanged. -/
def getGenericChangesForFile (diffOracle : DiffKey → DiffFiles)
    (st : DiffCacheState × Nat) (commit : String) (path : String)
    (repoPath : String) (includeWorkingCopy : Bool) :
    FileChanges × DiffCacheState × Nat :=
  let key : DiffKey := ⟨commit, repoPath, includeWorkingCopy⟩
  match cacheLoad st.1 key with
  | some files => (extractFileChanges files path, st.1, st.2)
  | none =>
    let files := diffOracle key
    (extractFileChanges files path, st.1, st.2 + 1)

/-- One `getGenericChangesForFile` per request
    `(commit, relPath, repoPath, dirty-flag)`, threading the session
    state and keeping the per-stop results in order. -/
def runDiffSessionFrom (diffOracle : DiffKey → DiffFiles)
    (st : DiffCacheState × Nat) :
    List (String × String × String × Bool) →
      List FileChanges × DiffCacheState × Nat
  | [] => ([], st)
  | r :: rest =>
    let res := getGenericChangesForFile diffOracle st r.1 r.2.1 r.2.2.1 r.2.2.2
    let tail := runDiffSessionFrom diffOracle res.2 rest
    (res.1 :: tail.1, tail.2)

/-- The per-stop diff lookups of one `resolve`/`refresh` call: the cache is
    `start`ed, then every stop's lookup runs against the session state. -/
def runDiffSession (diffOracle : DiffKey → DiffFiles)
    (reqs : List (String × String × String × Bool)) :
    List FileChanges × DiffCacheState × Nat :=
  runDiffSessionFrom diffOracle (cacheStart, 0) reqs

/-! ## Theorems settling the claims -/

/-- A diff consisting of a single deletion at line 5: the addition, deletion
    and move sets are pairwise disjoint. -/
def c1changes : FileChanges := ⟨[], [5], [], "file"⟩

/-- C1: the delta functions are NOT mutually inverse.  For the disjoint
    `FileChanges` with `deletions = [5]` and the positive line 1 (in neither
    `additions` nor `deletions`), `computeDelta` subtracts the *total*
    deletion count and maps 1 to 0, while `undoDelta` only re-adds deletions
    below the running position, so both compositions return 0, not 1. -/
theorem computeDelta_undoDelta_not_inverse :
    (1 : Int) ∉ c1changes.additions ∧ (1 : Int) ∉ c1changes.deletions ∧
      (c1changes.computeDelta 1).bind c1changes.undoDelta = some 0 ∧
      (c1changes.undoDelta 1).bind c1changes.computeDelta = some 0 := by
  refine ⟨by decide, by decide, ?_, ?_⟩ <;> rfl

/-- A diff consisting of a single deletion at line 10. -/
def c2changes : FileChanges := ⟨[], [10], [], "file"⟩

/-- C2 counterexample: at line 1 of a diff whose only deletion is at
    line 10, the algorithm described by the claim (subtract only deletions
    at or before the line) returns 1, but `computeDelta` subtracts the total
    deletion count and returns 0. -/
theorem computeDelta_claim_counterexample :
    (1 : Int) ∉ c2changes.deletions ∧ mapGet c2changes.moves 1 = none ∧
      claimedComputeDelta c2changes 1 = some 1 ∧
      c2changes.computeDelta 1 = some 0 := by
  refine ⟨by decide, rfl, rfl, rfl⟩

/-- C2 amended: for a line neither deleted nor tracked by `moves`,
    `computeDelta` subtracts the *total* number of deletions and then adds
    the number of additions consumed by the ascending scan of the additions
    array as sorted by JavaScript's default (decimal-string lexicographic)
    `sort`, one per addition strictly below the running position, stopping
    at the first addition at or past it. -/
theorem computeDelta_total_deletion_shift (c : FileChanges) (line : Int)
    (hdel : line ∉ c.deletions) (hmov : mapGet c.moves line = none) :
    c.computeDelta line =
      some ((line - c.deletions.length) +
        consumedShifts (jsSort c.additions) (line - c.deletions.length)) := by
  unfold FileChanges.computeDelta
  rw [if_neg hdel, hmov]
  simp only [shiftScan_eq_add_consumed]

/-- Witness for `computeDelta_total_deletion_shift` at `c2changes`, line 1. -/
theorem computeDelta_total_deletion_shift_witness :
    c2changes.computeDelta 1 =
      some ((1 - (c2changes.deletions.length : Int)) +
        consumedShifts (jsSort c2changes.additions)
          (1 - c2changes.deletions.length)) :=
  computeDelta_total_deletion_shift c2changes 1 (by decide) rfl

/-- The identity (empty) diff. -/
def emptyChanges : FileChanges := ⟨[], [], [], "file"⟩

/-- C3: neither delta function validates the line number.  A line of 0 or
    -3 raises no error of any kind — both functions return the shifted
    (here unchanged) value, silently coercing the invalid input. -/
theorem delta_accepts_nonpositive_lines :
    emptyChanges.computeDelta 0 = some 0 ∧
      emptyChanges.undoDelta 0 = some 0 ∧
      emptyChanges.computeDelta (-3) = some (-3) ∧
      emptyChanges.undoDelta (-3) = some (-3) := by
  refine ⟨rfl, rfl, rfl, rfl⟩

/-- Committed diff of `f1` between versions `A` and `B`: the two context
    lines added around line 1 move it to line 2. -/
def c4changes : FileChanges := ⟨[1, 3], [], [(1, 2)], "f1"⟩

/-- Backend for the version-mismatch scenario: one repository `repo` at
    root `/repo/`, checked out at version `B`, with a clean working copy. -/
def c4env : Env :=
  { config := [("repo", "/repo/")]
    fileLines := fun p =>
      if p = "/repo/f1" then some 5 else if p = "/repo/f2" then some 1 else none
    getCurrentVersion := fun p => if p = "/repo/" then some "B" else none
    getChangesForFile := fun c rp _ =>
      if c = "A" ∧ rp = "f1" then some c4changes else none
    getDirtyChangesForFile := fun _ rp _ => some ⟨[], [], [], rp⟩ }

/-- Tour file after the first `add`: one stop at line 1 of `f1`, bound to
    version `A` — while the backend now reports version `B`. -/
def c4tf : TourFile :=
  ⟨"1.0", "Tour", "Tour", "", "0.10.0", some 1, [⟨"repo", "A"⟩],
    [⟨"Tour:0", "T1", "B1", 1, "f1", "repo", []⟩]⟩

/-- The second stop to add, in the same repository. -/
def c4stop : AbsoluteTourStop := ⟨none, "T2", "B2", "/repo/f2", 1, []⟩

/-- What the second `add` actually produces: the first stop silently
    remapped to line 2 and the binding advanced to `B`. -/
def c4tf' : TourFile :=
  ⟨"1.0", "Tour", "Tour", "", "0.10.0", some 2, [⟨"repo", "B"⟩],
    [⟨"Tour:0", "T1", "B1", 2, "f1", "repo", []⟩,
     ⟨"Tour:1", "T2", "B2", 1, "f2", "repo", []⟩]⟩

/-- C4: adding a second stop while the backend reports a version different
    from the existing binding does NOT fail.  `add` first refreshes every
    bound repository, which advances the binding from `A` to `B` and remaps
    the first stop's line from 1 to 2, so the 203 version-mismatch guard
    never fires and the call succeeds — the first stop is not left intact. -/
theorem add_version_mismatch_not_raised :
    c4tf.repositories = [⟨"repo", "A"⟩] ∧
      c4env.getCurrentVersion "/repo/" = some "B" ∧
      add c4env c4tf c4stop none none = .ok (c4tf', "Tour:1") ∧
      c4tf'.repositories = [⟨"repo", "B"⟩] ∧
      (c4tf'.stops.map (fun s => s.line) = [2, 1]) := by
  refine ⟨rfl, rfl, rfl, rfl, rfl⟩

/-- C5: after a successful `remove`, every repository binding that remains
    in the tour file is referenced by at least one remaining stop — the
    pruning filter keeps a binding only when its repository occurs among the
    remaining stops' repositories. -/
theorem remove_prunes_unreferenced_bindings (tf : TourFile) (stopId : String)
    (tf' : TourFile) (rs : RepoState)
    (hok : remove tf stopId = .ok tf') (hmem : rs ∈ tf'.repositories) :
    ∃ stop ∈ tf'.stops, stop.repository = rs.repository := by
  unfold remove at hok
  cases hfind : tf.stops.findIdx? (fun stop => stop.id = stopId) with
  | none => rw [hfind] at hok; exact absurd hok (by simp)
  | some index =>
    rw [hfind] at hok
    simp only [Except.ok.injEq] at hok
    subst hok
    simp only [List.mem_filter] at hmem
    obtain ⟨-, hcont⟩ := hmem
    have := List.elem_iff.mp hcont
    simp only [List.mem_map] at this
    obtain ⟨stop, hstop, hrep⟩ := this
    exact ⟨stop, hstop, hrep⟩

/-- Two-repository tour used to witness the pruning theorem. -/
def c5tf : TourFile :=
  ⟨"1.0", "Tour", "Tour", "", "0.10.0", some 2,
    [⟨"repo1", "A"⟩, ⟨"repo2", "B"⟩],
    [⟨"Tour:0", "S1", "", 1, "f1", "repo1", []⟩,
     ⟨"Tour:1", "S2", "", 1, "f2", "repo2", []⟩]⟩

/-- Result of removing the only `repo1` stop: its binding is pruned. -/
def c5tf' : TourFile :=
  ⟨"1.0", "Tour", "Tour", "", "0.10.0", some 2, [⟨"repo2", "B"⟩],
    [⟨"Tour:1", "S2", "", 1, "f2", "repo2", []⟩]⟩

/-- Witness for `remove_prunes_unreferenced_bindings`: removing the last
    `repo1` stop leaves only the `repo2` binding, which is referenced. -/
theorem remove_prunes_unreferenced_bindings_witness :
    ∃ stop ∈ c5tf'.stops, stop.repository = "repo2" :=
  remove_prunes_unreferenced_bindings c5tf "Tour:0" c5tf' ⟨"repo2", "B"⟩
    rfl (by decide)

/-- A one-stop stop list for the scramble counterexample. -/
def c6stop : TourStop := ⟨"t:0", "S", "", 1, "f", "repo", []⟩

/-- C6 counterexample: the guard of `scramble` only rejects indices `>=`
    the stop count.  The out-of-range index -1 passes it, so the call
    succeeds and replaces the one-stop list with `[undefined]` — it neither
    fails with an error nor leaves the stop list unchanged. -/
theorem scramble_negative_index_counterexample :
    ¬(0 ≤ (-1 : Int) ∧ (-1 : Int) < ([c6stop].length : Int)) ∧
      scramble [c6stop] [-1] = .ok [none] ∧
      ([none] : List (Option TourStop)) ≠ [c6stop].map some := by
  refine ⟨by decide, rfl, by decide⟩

/-- C6 amended: indices at or past the stop count make `scramble` fail with
    the out-of-bounds error before the stop list is replaced; when every
    index is below the count the list is replaced by
    `indices.map(i => stops[i])`, where an index in `[0, length)` selects
    the stop at that position and a negative index yields an `undefined`
    entry (the guard does not reject negative indices). -/
theorem scramble_spec (stops : List TourStop) (indices : List Int) :
    ((∀ i ∈ indices, i < (stops.length : Int)) →
        scramble stops indices = .ok (indices.map (jsIndex stops))) ∧
      ((∃ i ∈ indices, (stops.length : Int) ≤ i) →
        scramble stops indices = .error "One or more indices out of bounds.") ∧
      (∀ i : Int, 0 ≤ i → jsIndex stops i = stops[i.toNat]?) := by
  refine ⟨?_, ?_, ?_⟩
  · intro h
    unfold scramble
    rw [if_neg]
    simp only [List.any_eq_true, decide_eq_true_eq, not_exists, not_and, not_le]
    intro i hi
    exact h i hi
  · intro ⟨i, hi, hle⟩
    unfold scramble
    rw [if_pos]
    simp only [List.any_eq_true, decide_eq_true_eq]
    exact ⟨i, hi, hle⟩
  · intro i h0
    unfold jsIndex
    by_cases hb : 0 ≤ i ∧ i < (stops.length : Int)
    · rw [dif_pos hb]
      have hlt : i.toNat < stops.length := by omega
      rw [List.getElem?_eq_getElem hlt]
      rfl
    · rw [dif_neg hb]
      have : stops.length ≤ i.toNat := by omega
      rw [List.getElem?_eq_none this]

/-- Three stops for the scramble witness. -/
def c6stops : List TourStop :=
  [⟨"t:0", "A", "", 1, "f", "repo", []⟩,
   ⟨"t:1", "B", "", 2, "f", "repo", []⟩,
   ⟨"t:2", "C", "", 3, "f", "repo", []⟩]

/-- Witness for `scramble_spec`: on a 3-stop tour, `[1,2,0]` reorders the
    stops and `[0,5]` fails with the out-of-bounds error. -/
theorem scramble_spec_witness :
    scramble c6stops [1, 2, 0] = .ok ([1, 2, 0].map (jsIndex c6stops)) ∧
      scramble c6stops [0, 5] = .error "One or more indices out of bounds." :=
  ⟨(scramble_spec c6stops [1, 2, 0]).1 (by decide),
   (scramble_spec c6stops [0, 5]).2.1 ⟨5, by decide, by decide⟩⟩

/-- C7: both failure kinds of `deserializeTourFile` surface as error 400.
    Text that is not valid JSON fails with 400, and the well-formed but
    structurally invalid object `{}` also fails with 400 — the 401 thrown
    by the structural check inside the `try` block is caught by the
    surrounding `catch` and replaced by the malformed-JSON error. -/
theorem deserialize_structural_failure_gets_400 :
    deserializeTourFile none = .error ⟨400, "Invalid JSON string.", none⟩ ∧
      validTourFile (Json.obj []) = false ∧
      deserializeTourFile (some (Json.obj [])) =
        .error ⟨400, "Invalid JSON string.", none⟩ := by
  refine ⟨rfl, rfl, rfl⟩

/-- A tour file with one repository binding and one stop, as produced by a
    successful `add`. -/
def c8tf : TourFile :=
  ⟨"1.0", "Tour", "Tour", "", "0.10.0", some 1, [⟨"repo", "A"⟩],
    [⟨"Tour:0", "T", "B", 1, "f", "repo", [⟨"other", 2⟩]⟩]⟩

/-- C8: the serialize/deserialize round trip fails for any tour file with a
    repository binding.  The serializer emits bindings as
    `{repository, commit}`, but `validTourFile` requires each binding to
    carry a `versionMode` string and a structured `version`, so the parsed
    object is rejected — and, through the catch of C7, the call fails with
    error 400 instead of returning an equal tour file. -/
theorem serialize_roundtrip_fails_with_binding :
    validRepoState (encodeRepoState ⟨"repo", "A"⟩) = false ∧
      validTourFile (serializeTourFile c8tf) = false ∧
      deserializeTourFile (some (serializeTourFile c8tf)) =
        .error ⟨400, "Invalid JSON string.", none⟩ := by
  refine ⟨rfl, rfl, rfl⟩

theorem runDiffSessionFrom_count (diffOracle : DiffKey → DiffFiles)
    (reqs : List (String × String × String × Bool)) (n : Nat) :
    (runDiffSessionFrom diffOracle (cacheStart, n) reqs).2 =
      (cacheStart, n + reqs.length) := by
  induction reqs generalizing n with
  | nil => simp [runDiffSessionFrom]
  | cons r rest ih =>
    have hstep :
        getGenericChangesForFile diffOracle (cacheStart, n) r.1 r.2.1 r.2.2.1 r.2.2.2 =
          (extractFileChanges (diffOracle ⟨r.1, r.2.2.1, r.2.2.2⟩) r.2.1,
            cacheStart, n + 1) := rfl
    simp only [runDiffSessionFrom, hstep, ih]
    simp [Nat.add_comm, Nat.add_assoc, Nat.add_left_comm, List.length_cons]

/-- C9: the diff session cache never memoizes anything.
    `getGenericChangesForFile` never calls `cache.save`, so over any
    sequence of requests — even repeated lookups with equal
    `(version, repoRoot, dirty-flag)` keys, which this model looks up
    structurally although the source's object-literal `Map` keys could
    never even hit — the cache stays in its freshly started empty state and
    the diff subprocess runs once per request: N stops incur N diff
    computations, not 1. -/
theorem diff_session_never_memoizes (diffOracle : DiffKey → DiffFiles)
    (reqs : List (String × String × String × Bool)) :
    (runDiffSession diffOracle reqs).2 = (cacheStart, reqs.length) := by
  simpa using runDiffSessionFrom_count diffOracle reqs 0

theorem find?_updateFirstCommit (l : List RepoState) (repo v : String)
    (rs : RepoState)
    (h : l.find? (fun st => st.repository = repo) = some rs) :
    (updateFirstCommit l repo v).find? (fun st => st.repository = repo) =
      some { rs with commit := v } := by
  induction l with
  | nil => simp at h
  | cons r rest ih =>
    by_cases hr : r.repository = repo
    · rw [List.find?_cons_of_pos _ (by simp [hr])] at h
      injection h with h
      subst h
      unfold updateFirstCommit
      rw [if_pos hr]
      exact List.find?_cons_of_pos _ (by simp [hr])
    · rw [List.find?_cons_of_neg _ (by simp [hr])] at h
      unfold updateFirstCommit
      rw [if_neg hr]
      rw [List.find?_cons_of_neg _ (by simp [hr])]
      exact ih h

/-- C10: (a) when the repository's binding already equals the backend's
    current version (and the repository is mapped and versioned), `refresh`
    succeeds and returns the tour file completely unchanged — the early
    return fires before any stop is touched; (b) `refresh` is idempotent
    while the backend state is unchanged: a second `refresh` on the output
    of a successful one returns that output untouched, because the first
    call left the binding equal to the current version. -/
theorem refresh_current_noop_and_idempotent (env : Env) (tf : TourFile)
    (repository : String) :
    (∀ rs p,
        tf.repositories.find? (fun st => st.repository = repository) = some rs →
        getRepoPath env repository = .ok p →
        env.getCurrentVersion p = some rs.commit →
        refresh env tf repository = .ok tf) ∧
      (∀ tf', refresh env tf repository = .ok tf' →
        refresh env tf' repository = .ok tf') := by
  constructor
  · intro rs p hrs hp hcv
    unfold refresh
    rw [hp]
    simp only
    rw [hcv]
    simp only
    rw [hrs]
    simp
  · intro tf' h
    unfold refresh at h
    cases hrp : getRepoPath env repository with
    | error e => rw [hrp] at h; exact absurd h (by simp)
    | ok p' =>
      rw [hrp] at h
      simp only at h
      cases hv : env.getCurrentVersion p' with
      | none => rw [hv] at h; exact absurd h (by simp)
      | some v =>
        rw [hv] at h
        simp only at h
        cases hf : tf.repositories.find? (fun st => st.repository = repository) with
        | none => rw [hf] at h; exact absurd h (by simp)
        | some rs' =>
          rw [hf] at h
          simp only at h
          by_cases hc : rs'.commit = v
          · rw [if_pos hc] at h
            have htf : tf' = tf := (Except.ok.inj h).symm
            subst htf
            unfold refresh
            rw [hrp]
            simp only
            rw [hv]
            simp only
            rw [hf]
            simp only
            rw [if_pos hc]
          · rw [if_neg hc] at h
            have htf := (Except.ok.inj h).symm
            subst htf
            unfold refresh
            rw [hrp]
            simp only
            rw [hv]
            simp only
            rw [find?_updateFirstCommit tf.repositories repository v rs' hf]
            simp

/-- Tour file bound to the backend's current version `B`, for the refresh
    witness. -/
def c10tf : TourFile :=
  ⟨"1.0", "Tour", "Tour", "", "0.10.0", some 1, [⟨"repo", "B"⟩],
    [⟨"Tour:0", "T1", "B1", 2, "f1", "repo", []⟩]⟩

/-- Witness for `refresh_current_noop_and_idempotent`: with the binding at
    the current version `B`, `refresh` returns the tour file unchanged, and
    the refresh of the version-`A` tour file `c4tf` produces `c10tf`, on
    which a second `refresh` is a no-op. -/
theorem refresh_current_noop_and_idempotent_witness :
    refresh c4env c10tf "repo" = .ok c10tf ∧
      refresh c4env c10tf "repo" = .ok c10tf :=
  ⟨(refresh_current_noop_and_idempotent c4env c10tf "repo").1
      ⟨"repo", "B"⟩ "/repo/" rfl rfl rfl,
   (refresh_current_noop_and_idempotent c4env c4tf "repo").2 c10tf rfl⟩

end Tourist
